import Mathlib

/-!
Shallow embedding of the catalog-extraction core of `generate_prescription.py`
(repository `papeleria_quimioterapia`).

The grid is the pandas frame produced by
`pd.read_excel(..., sheet_name="Listas", header=None)`: a rectangular array of
cells, each either a string or NaN (empty cells read as NaN).  Numeric cells
only ever reach the engine through Python's `str`, so they are represented by
their textual rendering.  Python string helpers (`strip`, `lower`, `in`) are
re-implemented on `List Char` so that every definition evaluates by kernel
reduction.
-/

namespace Papeleria

/-- A spreadsheet cell as seen by the extractor: a string value or NaN. -/
inductive Cell where
  | text (s : String)
  | nan
deriving DecidableEq, Repr

/-- Python `str(x)` on a cell value: `str(float('nan')) = "nan"`. -/
def cellStr : Cell → String
  | .text s => s
  | .nan => "nan"

/-- `pd.isna` on one cell. -/
def Cell.isNa : Cell → Bool
  | .nan => true
  | .text _ => false

/-- ASCII lower-casing of one character (Python `str.lower` restricted to the
ASCII range; the substring probes used by the engine are all ASCII). -/
def asciiLower (c : Char) : Char :=
  if 'A' ≤ c && c ≤ 'Z' then Char.ofNat (c.toNat + 32) else c

/-- Python `str.lower`. -/
def strLower (s : String) : String := ⟨s.data.map asciiLower⟩

/-- Python `str.strip`: drop leading and trailing whitespace. -/
def trimChars (l : List Char) : List Char :=
  ((l.dropWhile Char.isWhitespace).reverse.dropWhile Char.isWhitespace).reverse

/-- Python `str.strip` on a string. -/
def strTrim (s : String) : String := ⟨trimChars s.data⟩

/-- `needle.isPrefixOf hay || charsContain needle (tail hay)`: does `needle`
occur as a contiguous run inside `hay`?  (Python's `needle in hay`.) -/
def charsContain (needle : List Char) : List Char → Bool
  | [] => needle.isEmpty
  | c :: t => needle.isPrefixOf (c :: t) || charsContain needle t

/-- Python `needle in hay` on strings. -/
def strContains (hay needle : String) : Bool := charsContain needle.data hay.data

/-- Python `" ".join` on a list of strings. -/
def joinSpace : List String → String
  | [] => ""
  | [x] => x
  | x :: y :: t => x ++ " " ++ joinSpace (y :: t)

/-- The grid read from sheet "Listas".  `ncols` is `raw.shape[1]`; a pandas
frame is rectangular, with unset cells holding NaN, so cell access defaults to
NaN inside the frame and the helper is total outside it. -/
structure Grid where
  ncols : Nat
  data : List (List Cell)
deriving Repr

/-- `raw.shape[0]`. -/
def Grid.nrows (g : Grid) : Nat := g.data.length

/-- `raw.iat[r, c]` (total; NaN outside the frame). -/
def Grid.cell (g : Grid) (r c : Nat) : Cell :=
  if c < g.ncols then ((g.data.getD r []).getD c Cell.nan) else Cell.nan

/-- `raw.iloc[r, lo:hi].tolist()`: the cells of row `r` in columns
`lo ..< min hi ncols` (Python slices truncate at the frame edge). -/
def rowSlice (g : Grid) (r lo hi : Nat) : List Cell :=
  (List.range (min hi g.ncols - lo)).map (fun i => g.cell r (lo + i))

/-- `str(raw.iat[r, c]).strip().lower() == "medicamento"` (line 36). -/
def isCandidate (g : Grid) (r c : Nat) : Bool :=
  strLower (strTrim (cellStr (g.cell r c))) == "medicamento"

/-- `header = raw.iloc[r, c:c+6].tolist()` (line 38). -/
def headerCells (g : Grid) (r c : Nat) : List Cell := rowSlice g r c (c + 6)

/-- `"Medicamento" in header[0]` (line 39).  `header[0]` is the raw anchor
cell; Python's `in` on a non-string would raise `TypeError`, but a candidate
cell is necessarily a string, so NaN is mapped to `false` here. -/
def headerHasMedicamento (g : Grid) (r c : Nat) : Bool :=
  match (headerCells g r c).headD Cell.nan with
  | .text s => strContains s "Medicamento"
  | .nan => false

/-- A candidate anchor that passed the second, case-sensitive check
(lines 36-40): only these produce a table. -/
def isValidatedAnchor (g : Grid) (r c : Nat) : Bool :=
  isCandidate g r c && headerHasMedicamento g r c

/-- `row = raw.iloc[rr, c:c+6]` (line 45). -/
def rowCells (g : Grid) (rr c : Nat) : List Cell := rowSlice g rr c (c + 6)

/-- `row.isna().all()` (line 46). -/
def isBlankRow (g : Grid) (rr c : Nat) : Bool :=
  (rowCells g rr c).all Cell.isNa

/-- The `while rr < raw.shape[0]` loop of lines 43-49, with
`fuel = nrows - rr` remaining iterations. -/
def extractBodyAux (g : Grid) (c : Nat) : Nat → Nat → List (List Cell)
  | _, 0 => []
  | rr, fuel + 1 =>
    if isBlankRow g rr c then []
    else rowCells g rr c :: extractBodyAux g c (rr + 1) fuel

/-- The rows accumulated below anchor `(r, c)` (lines 42-49): read from row
`r+1` downward, stopping at the first fully-NaN 6-cell row or the bottom. -/
def extractBody (g : Grid) (r c : Nat) : List (List Cell) :=
  extractBodyAux g c (r + 1) (g.nrows - (r + 1))

/-- One catalog record: the columns of the per-table DataFrame of line 50
plus the `bucket` column added at line 53.  `medicamento` is the drug name,
`dosis` the dose, `solucion` the solution, `vs` the volume, `tiempo` the
infusion time and `via` the route.  `bucket` is `Option` because the frame
column could in principle hold NaN (line 63 fills it). -/
structure CatEntry where
  bucket : Option String
  medicamento : Cell
  dosis : Cell
  solucion : Cell
  vs : Cell
  tiempo : Cell
  via : Cell
deriving DecidableEq, Repr

/-- Positional assignment of one scanned row to the six named columns of
`pd.DataFrame(rows, columns=["Medicamento","Dosis","Solución","VS","Tiempo","Via"])`
(line 50).  A row of any other width makes that constructor raise
`ValueError: 6 columns passed`, modelled as `none`. -/
def mkEntry (b : Option String) (row : List Cell) : Option CatEntry :=
  match row with
  | [m, d, s, v, t, w] => some ⟨b, m, d, s, v, t, w⟩
  | _ => none

/-- Build the whole per-table frame; `none` is the `ValueError` of line 50. -/
def rowsToEntries (b : Option String) : List (List Cell) → Option (List CatEntry)
  | [] => some []
  | row :: rest =>
    match mkEntry b row, rowsToEntries b rest with
    | some e, some es => some (e :: es)
    | _, _ => none

/-- `df["Medicamento"].astype(str).str.strip().isin(["-", "nan", "None"])`
(line 55), the placeholder-name test on one cell. -/
def isPlaceholderName (x : Cell) : Bool :=
  ["-", "nan", "None"].contains (strTrim (cellStr x))

/-- `df = df[~df["Medicamento"]...isin(["-","nan","None"])]` (line 55). -/
def cleanRows (l : List CatEntry) : List CatEntry :=
  l.filter (fun e => !(isPlaceholderName e.medicamento))

/-- `_infer_bucket`'s per-row probe text (line 71-72):
`" ".join(raw.iloc[up, max(0,c-2):c+1].astype(str).str.lower().tolist())`. -/
def rowTxt (g : Grid) (up c : Nat) : String :=
  joinSpace ((rowSlice g up (c - 2) (c + 1)).map (fun x => strLower (cellStr x)))

/-- The if-chain of lines 73-80: first matching section keyword, in the fixed
priority order. -/
def bucketOfTxt (txt : String) : Option String :=
  if strContains txt "premedic" then some "Premedicación"
  else if strContains txt "anticuerp" then some "Anticuerpos"
  else if strContains txt "quimiot" then some "Quimioterapia"
  else if strContains txt "otros" then some "Otros"
  else none

/-- The `for up in range(max(0, r-8), r)[::-1]` loop of `_infer_bucket`
(lines 70-81) over an explicit list of row indices. -/
def inferBucketAux (g : Grid) (c : Nat) : List Nat → String
  | [] => "Catálogo"
  | up :: rest =>
    match bucketOfTxt (rowTxt g up c) with
    | some b => b
    | none => inferBucketAux g c rest

/-- `_infer_bucket(raw, r, c)` (lines 68-81): scan rows `r-1` down to
`max(0, r-8)`, nearest first; `range(max(0,r-8), r)[::-1]` is
`(range' (r-8) (min r 8)).reverse` in Nat arithmetic. -/
def inferBucket (g : Grid) (r c : Nat) : String :=
  inferBucketAux g c ((List.range' (r - 8) (min r 8)).reverse)

/-- The table built at one validated anchor (lines 41-56): body rows packed
into records, bucket column attached, placeholder names dropped. -/
def tableAt (g : Grid) (r c : Nat) : Except String (List CatEntry) :=
  match rowsToEntries (some (inferBucket g r c)) (extractBody g r c) with
  | none => .error "ValueError: 6 columns passed"
  | some entries => .ok (cleanRows entries)

/-- The `(r, c)` pairs visited by the scan loops of lines 34-35:
`for r in range(min(200, raw.shape[0])): for c in range(min(40, raw.shape[1]-1))`. -/
def scanWindow (g : Grid) : List (Nat × Nat) :=
  (List.range (min 200 g.nrows)).flatMap (fun r =>
    (List.range (min 40 (g.ncols - 1))).map (fun c => (r, c)))

/-- The validated anchors, in row-major scan order (lines 34-40). -/
def anchors (g : Grid) : List (Nat × Nat) :=
  (scanWindow g).filter (fun rc => isValidatedAnchor g rc.1 rc.2)

/-- The `cat_frames.append(df)` accumulation (lines 30-56): one frame per
validated anchor, a raised `ValueError` aborting the whole call. -/
def tablesFor (g : Grid) : List (Nat × Nat) → Except String (List (List CatEntry))
  | [] => .ok []
  | rc :: rest =>
    match tableAt g rc.1 rc.2 with
    | .error s => .error s
    | .ok fr =>
      match tablesFor g rest with
      | .error s => .error s
      | .ok frs => .ok (fr :: frs)

/-- `pd.concat(cat_frames, ignore_index=True)` (line 61); an empty frame list
yields the empty catalog of line 59. -/
def concatTables (g : Grid) : Except String (List CatEntry) :=
  match tablesFor g (anchors g) with
  | .error s => .error s
  | .ok frs => .ok frs.flatten

/-- `cat["bucket"] = cat["bucket"].fillna("Desconocido")` on one entry
(line 63). -/
def fillnaBucket (e : CatEntry) : CatEntry :=
  { e with bucket := some (e.bucket.getD "Desconocido") }

/-- The concatenated catalog after bucket normalization (lines 61-63),
before deduplication. -/
def rawCatalog (g : Grid) : Except String (List CatEntry) :=
  match concatTables g with
  | .error s => .error s
  | .ok l => .ok (l.map fillnaBucket)

/-- The deduplication key of line 65: `subset=["bucket","Medicamento"]`. -/
def ckey (e : CatEntry) : Option String × Cell := (e.bucket, e.medicamento)

/-- `cat.drop_duplicates(subset=["bucket","Medicamento"], keep="first")`
(line 65): keep an entry iff its key was not seen earlier. -/
def dropDupKeys : List CatEntry → List (Option String × Cell) → List CatEntry
  | [], _ => []
  | e :: t, seen =>
    if ckey e ∈ seen then dropDupKeys t seen
    else e :: dropDupKeys t (ckey e :: seen)

/-- `extract_catalog_from_excel` (lines 24-66) on the scanned grid.  The final
column reselection of line 66 reorders columns only and is the identity here. -/
def extract_catalog_from_excel (g : Grid) : Except String (List CatEntry) :=
  match rawCatalog g with
  | .error s => .error s
  | .ok l => .ok (dropDupKeys l [])

/-- `sorted(...)` on a list of Python strings (code-point lexicographic). -/
def sortStrings (l : List String) : List String :=
  l.mergeSort (fun a b => decide (a ≤ b))

/-- The inner `choices(bucket)` of `human_bucket_choices` (lines 84-85). -/
def choicesFor (cat : List CatEntry) (bucket : String) : List String :=
  sortStrings ((cat.filter (fun e => e.bucket == some bucket)).map
    (fun e => cellStr e.medicamento))

/-- `human_bucket_choices` (lines 83-90). -/
def human_bucket_choices (cat : List CatEntry) :
    List String × List String × List String × List String :=
  (choicesFor cat "Premedicación", choicesFor cat "Anticuerpos",
   choicesFor cat "Quimioterapia", choicesFor cat "Otros")

/-- The `selections` dict built by the UI: one ordered list of chosen drug
names per section key. -/
structure Selections where
  premedicacion : List String
  anticuerpos : List String
  quimioterapia : List String
  otros : List String

/-- `selections.get(k, [])` for the four-key dict of `app.py`. -/
def selectionsGet (sel : Selections) (k : String) : List String :=
  if k == "premedicacion" then sel.premedicacion
  else if k == "anticuerpos" then sel.anticuerpos
  else if k == "quimioterapia" then sel.quimioterapia
  else if k == "otros" then sel.otros
  else []

/-- The `meds` computation of `write_table` (lines 156-165): a dict lookup by
lower-cased bucket, then the explicit four-way override. -/
def medsFor (sel : Selections) (bucket : String) : List String :=
  if bucket == "Premedicación" then sel.premedicacion
  else if bucket == "Anticuerpos" then sel.anticuerpos
  else if bucket == "Quimioterapia" then sel.quimioterapia
  else if bucket == "Otros" then sel.otros
  else selectionsGet sel (strLower bucket)

/-- One data row written into a section table of the output sheet
(lines 173-178): the selected name followed by the five catalog fields. -/
structure OutRow where
  med : String
  dosis : Cell
  solucion : Cell
  vs : Cell
  tiempo : Cell
  via : Cell
deriving DecidableEq, Repr

/-- `cat[cat["Medicamento"].astype(str)==str(med)].head(1)` over
`cat = df_catalog[df_catalog["bucket"]==bucket]` (lines 167-169). -/
def lookupRow (cat : List CatEntry) (bucket med : String) : Option CatEntry :=
  ((cat.filter (fun e => e.bucket == some bucket)).filter
    (fun e => cellStr e.medicamento == med)).head?

/-- The `for med in meds` loop of `write_table` (lines 168-179): one output
row per selected name that resolves, unresolved names skipped. -/
def writeTableRows (cat : List CatEntry) (bucket : String) (meds : List String) :
    List OutRow :=
  meds.filterMap (fun med =>
    (lookupRow cat bucket med).map (fun e =>
      ⟨med, e.dosis, e.solucion, e.vs, e.tiempo, e.via⟩))

/-- `write_table` restricted to its data rows (formatting elided). -/
def writeSection (cat : List CatEntry) (sel : Selections) (bucket : String) :
    List OutRow :=
  writeTableRows cat bucket (medsFor sel bucket)

/-- A small concrete "Listas" sheet: a Premedicación title above a
"Medicamento" header, two drug rows, a "-" separator row and a blank row. -/
def exampleGrid : Grid :=
  ⟨6,
   [[.text "PREMEDICACIÓN", .nan, .nan, .nan, .nan, .nan],
    [.text "Medicamento", .text "Dosis", .text "Solución", .text "VS", .text "Tiempo", .text "Via"],
    [.text "Ondansetron", .text "8 mg", .text "SS 100 ml", .text "100", .text "15 min", .text "IV"],
    [.text "Dexametasona", .text "8 mg", .text "SS 50 ml", .text "50", .text "15 min", .text "IV"],
    [.text "-", .nan, .nan, .nan, .nan, .nan],
    [.nan, .nan, .nan, .nan, .nan, .nan]]⟩

/-- The catalog the extractor returns on `exampleGrid`. -/
def exampleCatalog : List CatEntry :=
  [⟨some "Premedicación", .text "Ondansetron", .text "8 mg", .text "SS 100 ml",
    .text "100", .text "15 min", .text "IV"⟩,
   ⟨some "Premedicación", .text "Dexametasona", .text "8 mg", .text "SS 50 ml",
    .text "50", .text "15 min", .text "IV"⟩]

/-- A sheet whose single data row has an empty name cell but a non-empty dose
cell. -/
def missingNameGrid : Grid :=
  ⟨6,
   [[.text "Medicamento", .text "Dosis", .text "Solución", .text "VS", .text "Tiempo", .text "Via"],
    [.nan, .text "8 mg", .nan, .nan, .nan, .nan],
    [.nan, .nan, .nan, .nan, .nan, .nan]]⟩

/-- A one-column sheet whose only cell is a "Medicamento" header: it sits in
the last column, which the scan loop of line 35 never visits. -/
def lastColGrid : Grid := ⟨1, [[.text "Medicamento"]]⟩

/-! ### Basic grid lemmas -/

lemma cell_of_nrows_le (g : Grid) (r c : Nat) (h : g.nrows ≤ r) :
    g.cell r c = Cell.nan := by
  unfold Grid.cell
  have hr : g.data.getD r [] = [] := by
    have : g.data.length ≤ r := h
    simp [List.getD, List.getElem?_eq_none this]
  rw [hr]
  split <;> simp [List.getD]

lemma isBlankRow_of_nrows_le (g : Grid) (r c : Nat) (h : g.nrows ≤ r) :
    isBlankRow g r c = true := by
  unfold isBlankRow rowCells rowSlice
  rw [List.all_eq_true]
  intro x hx
  obtain ⟨i, _, rfl⟩ := List.mem_map.mp hx
  rw [cell_of_nrows_le g r _ h]
  rfl

/-! ### The row-consuming loop (lines 43-49) -/

lemma extractBodyAux_spec (g : Grid) (c : Nat) :
    ∀ fuel rr, isBlankRow g (rr + fuel) c = true →
      ∃ k, k ≤ fuel ∧ (∀ i, i < k → isBlankRow g (rr + i) c = false) ∧
        isBlankRow g (rr + k) c = true ∧
        extractBodyAux g c rr fuel =
          (List.range k).map (fun i => rowCells g (rr + i) c) := by
  intro fuel
  induction fuel with
  | zero =>
    intro rr h
    exact ⟨0, Nat.le_refl 0, fun i hi => absurd hi (Nat.not_lt_zero i),
      by simpa using h, by simp [extractBodyAux]⟩
  | succ n ih =>
    intro rr h
    cases hb : isBlankRow g rr c with
    | true =>
      exact ⟨0, Nat.zero_le _, fun i hi => absurd hi (Nat.not_lt_zero i),
        by simpa using hb, by simp [extractBodyAux, hb]⟩
    | false =>
      have h' : isBlankRow g ((rr + 1) + n) c = true := by
        rw [show (rr + 1) + n = rr + (n + 1) by omega]; exact h
      obtain ⟨k, hk, hnb, hblank, heq⟩ := ih (rr + 1) h'
      refine ⟨k + 1, by omega, ?_, ?_, ?_⟩
      · intro i hi
        cases i with
        | zero => simpa using hb
        | succ j =>
          have := hnb j (by omega)
          rwa [show (rr + 1) + j = rr + (j + 1) by omega] at this
      · rw [show rr + (k + 1) = (rr + 1) + k by omega]; exact hblank
      · rw [show extractBodyAux g c rr (n + 1)
              = if isBlankRow g rr c then []
                else rowCells g rr c :: extractBodyAux g c (rr + 1) n from rfl]
        rw [hb, if_neg (by simp), heq, List.range_succ_eq_map, List.map_cons,
          List.map_map]
        refine congrArg₂ _ (by simp) ?_
        refine List.map_congr_left fun i _ => ?_
        simp only [Function.comp_apply, Nat.succ_eq_add_one]
        rw [show rr + (i + 1) = (rr + 1) + i by omega]

/-- Claim C1: for every validated anchor at `(r, c)`, table extraction reads
rows starting at row `r+1`, taking the 6 cells in columns `c..c+5` of each row
(`rowCells`), stops at the first row whose cells are all empty/missing,
includes neither that blank row nor any later row in the body, and maps each
included row positionally to the fields
(name, dose, solution, volume, infusionTime, route) =
(medicamento, dosis, solucion, vs, tiempo, via). -/
theorem C1_table_body_extraction (g : Grid) (r c : Nat)
    (_hv : isValidatedAnchor g r c = true) :
    ∃ stop, r + 1 ≤ stop ∧
      (∀ rr, r + 1 ≤ rr → rr < stop → isBlankRow g rr c = false) ∧
      isBlankRow g stop c = true ∧
      extractBody g r c =
        (List.range (stop - (r + 1))).map (fun i => rowCells g (r + 1 + i) c) ∧
      (∀ (b : Option String) (m d s v t w : Cell),
        mkEntry b [m, d, s, v, t, w] = some ⟨b, m, d, s, v, t, w⟩) := by
  have hend : isBlankRow g ((r + 1) + (g.nrows - (r + 1))) c = true :=
    isBlankRow_of_nrows_le g _ c (by omega)
  obtain ⟨k, _, hnb, hblank, heq⟩ :=
    extractBodyAux_spec g c (g.nrows - (r + 1)) (r + 1) hend
  refine ⟨(r + 1) + k, by omega, ?_, hblank, ?_, fun b m d s v t w => rfl⟩
  · intro rr h1 h2
    have := hnb (rr - (r + 1)) (by omega)
    rwa [show (r + 1) + (rr - (r + 1)) = rr by omega] at this
  · unfold extractBody
    rw [heq, show (r + 1) + k - (r + 1) = k by omega]

/-- Witness for C1 at `exampleGrid`, anchor `(1, 0)`. -/
theorem C1_table_body_extraction_witness :
    isValidatedAnchor exampleGrid 1 0 = true ∧
    (∃ stop, 1 + 1 ≤ stop ∧
      (∀ rr, 1 + 1 ≤ rr → rr < stop → isBlankRow exampleGrid rr 0 = false) ∧
      isBlankRow exampleGrid stop 0 = true ∧
      extractBody exampleGrid 1 0 =
        (List.range (stop - (1 + 1))).map
          (fun i => rowCells exampleGrid (1 + 1 + i) 0) ∧
      (∀ (b : Option String) (m d s v t w : Cell),
        mkEntry b [m, d, s, v, t, w] = some ⟨b, m, d, s, v, t, w⟩)) :=
  ⟨by decide, C1_table_body_extraction exampleGrid 1 0 (by decide)⟩

/-! ### The upward title scan of `_infer_bucket` (lines 68-81) -/

lemma range'_snoc_reverse (a n : Nat) :
    (List.range' a (n + 1)).reverse = (a + n) :: (List.range' a n).reverse := by
  rw [List.range'_concat]
  simp

lemma inferBucketAux_rev (g : Grid) (c a : Nat) :
    ∀ n,
      (∃ u, a ≤ u ∧ u < a + n ∧
        bucketOfTxt (rowTxt g u c) =
          some (inferBucketAux g c ((List.range' a n).reverse)) ∧
        ∀ v, u < v → v < a + n → bucketOfTxt (rowTxt g v c) = none)
      ∨ ((∀ v, a ≤ v → v < a + n → bucketOfTxt (rowTxt g v c) = none) ∧
        inferBucketAux g c ((List.range' a n).reverse) = "Catálogo") := by
  intro n
  induction n with
  | zero =>
    right
    exact ⟨fun v h1 h2 => absurd (by omega : v < v) (lt_irrefl v),
      by simp [inferBucketAux]⟩
  | succ n ih =>
    rw [range'_snoc_reverse]
    cases hbt : bucketOfTxt (rowTxt g (a + n) c) with
    | some b =>
      left
      refine ⟨a + n, by omega, by omega, ?_, fun v h1 h2 => absurd h1 (by omega)⟩
      simp [inferBucketAux, hbt]
    | none =>
      have haux : inferBucketAux g c ((a + n) :: (List.range' a n).reverse)
          = inferBucketAux g c ((List.range' a n).reverse) := by
        simp [inferBucketAux, hbt]
      rw [haux]
      rcases ih with ⟨u, h1, h2, h3, h4⟩ | ⟨hall, hres⟩
      · left
        refine ⟨u, h1, by omega, h3, fun v hv1 hv2 => ?_⟩
        by_cases hveq : v = a + n
        · rw [hveq]; exact hbt
        · exact h4 v hv1 (by omega)
      · right
        refine ⟨fun v hv1 hv2 => ?_, hres⟩
        by_cases hveq : v = a + n
        · rw [hveq]; exact hbt
        · exact hall v hv1 (by omega)

/-- Claim C2: bucket inference examines rows `r-1` down to `max (r-8) 0`,
nearest row first, restricted to columns `max (c-2) 0 .. c` (the slice inside
`rowTxt`); per row it joins the lower-cased cell texts and tests the fixed
priority order premedic/anticuerp/quimiot/otros (`bucketOfTxt`); it returns
the first match found scanning upward, and if no row in the window matches it
returns the sentinel "Catálogo" — in particular at `r = 0`, where the window
is empty. -/
theorem C2_bucket_inference (g : Grid) (r c : Nat) :
    ((∃ u, r - 8 ≤ u ∧ u < r ∧
        bucketOfTxt (rowTxt g u c) = some (inferBucket g r c) ∧
        ∀ v, u < v → v < r → bucketOfTxt (rowTxt g v c) = none)
      ∨ ((∀ v, r - 8 ≤ v → v < r → bucketOfTxt (rowTxt g v c) = none) ∧
        inferBucket g r c = "Catálogo")) ∧
    (r = 0 → inferBucket g r c = "Catálogo") := by
  constructor
  · have h := inferBucketAux_rev g c (r - 8) (min r 8)
    rw [show r - 8 + min r 8 = r by omega] at h
    exact h
  · rintro rfl
    rfl

/-- Witness for C2 at `exampleGrid`, anchor `(1, 0)` (title one row above). -/
theorem C2_bucket_inference_witness :
    ((∃ u, 1 - 8 ≤ u ∧ u < 1 ∧
        bucketOfTxt (rowTxt exampleGrid u 0) = some (inferBucket exampleGrid 1 0) ∧
        ∀ v, u < v → v < 1 → bucketOfTxt (rowTxt exampleGrid v 0) = none)
      ∨ ((∀ v, 1 - 8 ≤ v → v < 1 → bucketOfTxt (rowTxt exampleGrid v 0) = none) ∧
        inferBucket exampleGrid 1 0 = "Catálogo")) ∧
    (1 = 0 → inferBucket exampleGrid 1 0 = "Catálogo") :=
  C2_bucket_inference exampleGrid 1 0

/-! ### Deduplication lemmas (line 65) -/

lemma dropDupKeys_mem (l : List CatEntry) :
    ∀ seen e, e ∈ dropDupKeys l seen → e ∈ l ∧ ckey e ∉ seen := by
  induction l with
  | nil => intro seen e he; cases he
  | cons x t ih =>
    intro seen e he
    unfold dropDupKeys at he
    by_cases hx : ckey x ∈ seen
    · rw [if_pos hx] at he
      obtain ⟨h1, h2⟩ := ih seen e he
      exact ⟨List.mem_cons_of_mem x h1, h2⟩
    · rw [if_neg hx] at he
      rcases List.mem_cons.mp he with rfl | he'
      · exact ⟨List.mem_cons_self _ _, hx⟩
      · obtain ⟨h1, h2⟩ := ih _ e he'
        exact ⟨List.mem_cons_of_mem x h1,
          fun hs => h2 (List.mem_cons_of_mem _ hs)⟩

lemma dropDupKeys_pairwise (l : List CatEntry) :
    ∀ seen, (dropDupKeys l seen).Pairwise (fun a b => ckey a ≠ ckey b) := by
  induction l with
  | nil => intro seen; exact List.Pairwise.nil
  | cons x t ih =>
    intro seen
    unfold dropDupKeys
    by_cases hx : ckey x ∈ seen
    · rw [if_pos hx]; exact ih seen
    · rw [if_neg hx]
      refine List.Pairwise.cons ?_ (ih _)
      intro b hb
      have := (dropDupKeys_mem t _ b hb).2
      intro hkey
      exact this (hkey ▸ List.mem_cons_self _ _)

lemma dropDupKeys_find? (l : List CatEntry) :
    ∀ seen e, e ∈ dropDupKeys l seen →
      l.find? (fun x => decide (ckey x = ckey e)) = some e := by
  induction l with
  | nil => intro seen e he; cases he
  | cons x t ih =>
    intro seen e he
    unfold dropDupKeys at he
    by_cases hx : ckey x ∈ seen
    · rw [if_pos hx] at he
      have hne : ckey x ≠ ckey e := by
        intro hkey
        exact (dropDupKeys_mem t seen e he).2 (hkey ▸ hx)
      rw [List.find?_cons, decide_eq_false hne]
      exact ih seen e he
    · rw [if_neg hx] at he
      rcases List.mem_cons.mp he with rfl | he'
      · rw [List.find?_cons, decide_eq_true rfl]
      · have hne : ckey x ≠ ckey e := by
          intro hkey
          exact (dropDupKeys_mem t _ e he').2
            (hkey ▸ List.mem_cons_self _ _)
        rw [List.find?_cons, decide_eq_false hne]
        exact ih _ e he'

lemma dropDupKeys_covers (l : List CatEntry) :
    ∀ seen x, x ∈ l →
      ckey x ∈ seen ∨ ∃ e ∈ dropDupKeys l seen, ckey e = ckey x := by
  induction l with
  | nil => intro seen x hx; cases hx
  | cons y t ih
  =>
    intro seen x hx
    unfold dropDupKeys
    by_cases hy : ckey y ∈ seen
    · rw [if_pos hy]
      rcases List.mem_cons.mp hx with rfl | hx'
      · exact Or.inl hy
      · exact ih seen x hx'
    · rw [if_neg hy]
      rcases List.mem_cons.mp hx with rfl | hx'
      · exact Or.inr ⟨x, List.mem_cons_self _ _, rfl⟩
      · rcases ih (ckey y :: seen) x hx' with hs | ⟨e, he, hk⟩
        · rcases List.mem_cons.mp hs with hk | hs'
          · exact Or.inr ⟨y, List.mem_cons_self _ _, hk.symm⟩
          · exact Or.inl hs'
        · exact Or.inr ⟨e, List.mem_cons_of_mem _ he, hk⟩

/-! ### Membership facts through the extraction pipeline -/

lemma mkEntry_bucket (b : Option String) (row : List Cell) (e : CatEntry)
    (h : mkEntry b row = some e) : e.bucket = b := by
  unfold mkEntry at h
  split at h
  · cases h; rfl
  · cases h

lemma rowsToEntries_bucket (b : Option String) :
    ∀ body es, rowsToEntries b body = some es → ∀ e ∈ es, e.bucket = b := by
  intro body
  induction body with
  | nil =>
    intro es h e he
    unfold rowsToEntries at h
    cases h
    cases he
  | cons row rest ih =>
    intro es h e he
    unfold rowsToEntries at h
    cases hm : mkEntry b row with
    | none => rw [hm] at h; cases h
    | some e0 =>
      cases hr : rowsToEntries b rest with
      | none => rw [hm, hr] at h; cases h
      | some es0 =>
        rw [hm, hr] at h
        cases h
        rcases List.mem_cons.mp he with rfl | he'
        · exact mkEntry_bucket b row e hm
        · exact ih es0 hr e he'

lemma tableAt_ok_mem (g : Grid) (r c : Nat) (fr : List CatEntry)
    (h : tableAt g r c = .ok fr) :
    ∀ e ∈ fr, e.bucket = some (inferBucket g r c) ∧
      isPlaceholderName e.medicamento = false := by
  unfold tableAt at h
  cases hre : rowsToEntries (some (inferBucket g r c)) (extractBody g r c) with
  | none => rw [hre] at h; cases h
  | some entries =>
    rw [hre] at h
    cases h
    intro e he
    obtain ⟨hmem, hkeep⟩ := List.mem_filter.mp he
    refine ⟨rowsToEntries_bucket _ _ _ hre e hmem, ?_⟩
    simpa using hkeep

lemma tablesFor_ok_mem (g : Grid) :
    ∀ l frs, tablesFor g l = .ok frs →
      ∀ fr ∈ frs, ∃ rc ∈ l, tableAt g rc.1 rc.2 = .ok fr := by
  intro l
  induction l with
  | nil =>
    intro frs h fr hfr
    unfold tablesFor at h
    cases h
    cases hfr
  | cons rc rest ih =>
    intro frs h fr hfr
    unfold tablesFor at h
    cases ht : tableAt g rc.1 rc.2 with
    | error s => rw [ht] at h; cases h
    | ok fr0 =>
      cases hr : tablesFor g rest with
      | error s => rw [ht, hr] at h; cases h
      | ok frs0 =>
        rw [ht, hr] at h
        cases h
        rcases List.mem_cons.mp hfr with rfl | hfr'
        · exact ⟨rc, List.mem_cons_self _ _, ht⟩
        · obtain ⟨rc', hm, hok⟩ := ih frs0 hr fr hfr'
          exact ⟨rc', List.mem_cons_of_mem _ hm, hok⟩

lemma extract_ok_parts (g : Grid) (cat : List CatEntry)
    (h : extract_catalog_from_excel g = .ok cat) :
    ∃ l, concatTables g = .ok l ∧ cat = dropDupKeys (l.map fillnaBucket) [] := by
  unfold extract_catalog_from_excel rawCatalog at h
  cases hc : concatTables g with
  | error s => rw [hc] at h; cases h
  | ok l =>
    rw [hc] at h
    cases h
    exact ⟨l, rfl, rfl⟩

lemma concatTables_ok_mem (g : Grid) (l : List CatEntry)
    (h : concatTables g = .ok l) :
    ∀ e ∈ l, ∃ rc ∈ anchors g, e.bucket = some (inferBucket g rc.1 rc.2) ∧
      isPlaceholderName e.medicamento = false := by
  unfold concatTables at h
  cases ht : tablesFor g (anchors g) with
  | error s => rw [ht] at h; cases h
  | ok frs =>
    rw [ht] at h
    cases h
    intro e he
    obtain ⟨fr, hfr, hefr⟩ := List.mem_flatten.mp he
    obtain ⟨rc, hrc, hok⟩ := tablesFor_ok_mem g _ frs ht fr hfr
    obtain ⟨hb, hp⟩ := tableAt_ok_mem g rc.1 rc.2 fr hok e hefr
    exact ⟨rc, hrc, hb, hp⟩

lemma extract_mem (g : Grid) (cat : List CatEntry) (e : CatEntry)
    (h : extract_catalog_from_excel g = .ok cat) (he : e ∈ cat) :
    ∃ rc ∈ anchors g, ∃ e0 : CatEntry,
      e0.bucket = some (inferBucket g rc.1 rc.2) ∧
      isPlaceholderName e0.medicamento = false ∧ e = fillnaBucket e0 := by
  obtain ⟨l, hc, hcat⟩ := extract_ok_parts g cat h
  subst hcat
  have hmem : e ∈ l.map fillnaBucket := (dropDupKeys_mem _ [] e he).1
  obtain ⟨e0, he0, rfl⟩ := List.mem_map.mp hmem
  obtain ⟨rc, hrc, hb, hp⟩ := concatTables_ok_mem g l hc e0 he0
  exact ⟨rc, hrc, e0, hb, hp, rfl⟩

lemma fillnaBucket_medicamento (e : CatEntry) :
    (fillnaBucket e).medicamento = e.medicamento := rfl

lemma fillnaBucket_of_some (e : CatEntry) (b : String)
    (h : e.bucket = some b) : fillnaBucket e = e := by
  cases e
  simp only [fillnaBucket]
  simp_all

lemma extract_mem_placeholder (g : Grid) (cat : List CatEntry) (e : CatEntry)
    (h : extract_catalog_from_excel g = .ok cat) (he : e ∈ cat) :
    isPlaceholderName e.medicamento = false := by
  obtain ⟨rc, _, e0, _, hp, rfl⟩ := extract_mem g cat e h he
  rwa [fillnaBucket_medicamento]

lemma placeholder_false_not_nan (x : Cell) (h : isPlaceholderName x = false) :
    x.isNa = false := by
  cases x with
  | text s => rfl
  | nan => exact absurd h (by decide)

lemma placeholder_false_text (x : Cell) (h : isPlaceholderName x = false) :
    ∃ s, x = Cell.text s := by
  cases x with
  | text s => exact ⟨s, rfl⟩
  | nan => exact absurd h (by decide)

lemma isPlaceholderName_iff (x : Cell) :
    isPlaceholderName x = true ↔
      strTrim (cellStr x) ∈ (["-", "nan", "None"] : List String) := by
  unfold isPlaceholderName
  exact List.elem_iff

/-- Claim C3: the catalog returned by `extract_catalog_from_excel` carries no
two entries with the same `(bucket, name)` key; every surviving entry is the
first entry with its key in the concatenated pre-deduplication catalog
(`rawCatalog`, tables in scan order), so its field values come from the
first-encountered table; and every key of the raw catalog survives. -/
theorem C3_dedup_first_occurrence (g : Grid) (raw cat : List CatEntry)
    (h1 : rawCatalog g = .ok raw)
    (h2 : extract_catalog_from_excel g = .ok cat) :
    cat.Pairwise (fun a b => ckey a ≠ ckey b) ∧
    (∀ e ∈ cat, raw.find? (fun x => decide (ckey x = ckey e)) = some e) ∧
    (∀ x ∈ raw, ∃ e ∈ cat, ckey e = ckey x) := by
  have hcat : cat = dropDupKeys raw [] := by
    unfold extract_catalog_from_excel at h2
    rw [h1] at h2
    cases h2
    rfl
  subst hcat
  refine ⟨dropDupKeys_pairwise raw [], fun e he => dropDupKeys_find? raw [] e he,
    fun x hx => ?_⟩
  rcases dropDupKeys_covers raw [] x hx with hs | hcov
  · cases hs
  · exact hcov

/-- Witness for C3 at `exampleGrid`. -/
theorem C3_dedup_first_occurrence_witness :
    rawCatalog exampleGrid = .ok exampleCatalog ∧
    extract_catalog_from_excel exampleGrid = .ok exampleCatalog ∧
    (exampleCatalog.Pairwise (fun a b => ckey a ≠ ckey b) ∧
      (∀ e ∈ exampleCatalog,
        exampleCatalog.find? (fun x => decide (ckey x = ckey e)) = some e) ∧
      (∀ x ∈ exampleCatalog, ∃ e ∈ exampleCatalog, ckey e = ckey x)) :=
  ⟨by rfl, by rfl,
    C3_dedup_first_occurrence exampleGrid exampleCatalog exampleCatalog
      (by rfl) (by rfl)⟩

/-- Claim C4: no entry whose trimmed stringified name equals "-", "nan" or
"None" appears in a returned catalog; in the per-table filter (`cleanRows`)
all other rows pass through unchanged — membership is preserved for every
non-placeholder entry, whatever its other (possibly missing) fields — and
nothing else is added. -/
theorem C4_placeholder_filter (g : Grid) (cat : List CatEntry)
    (h : extract_catalog_from_excel g = .ok cat) :
    (∀ e ∈ cat,
      strTrim (cellStr e.medicamento) ∉ (["-", "nan", "None"] : List String)) ∧
    (∀ (l : List CatEntry) (e : CatEntry), e ∈ l →
      isPlaceholderName e.medicamento = false → e ∈ cleanRows l) ∧
    (∀ (l : List CatEntry) (e : CatEntry), e ∈ cleanRows l → e ∈ l) := by
  refine ⟨fun e he hmem => ?_, fun l e hel hp => ?_, fun l e hel => ?_⟩
  · have hp := extract_mem_placeholder g cat e h he
    have ht := (isPlaceholderName_iff e.medicamento).mpr hmem
    rw [hp] at ht
    cases ht
  · exact List.mem_filter.mpr ⟨hel, by simp [hp]⟩
  · exact (List.mem_filter.mp hel).1

/-- Witness for C4 at `exampleGrid` (whose sheet contains a "-" row that is
indeed absent from `exampleCatalog`). -/
theorem C4_placeholder_filter_witness :
    extract_catalog_from_excel exampleGrid = .ok exampleCatalog ∧
    ((∀ e ∈ exampleCatalog,
      strTrim (cellStr e.medicamento) ∉ (["-", "nan", "None"] : List String)) ∧
    (∀ (l : List CatEntry) (e : CatEntry), e ∈ l →
      isPlaceholderName e.medicamento = false → e ∈ cleanRows l) ∧
    (∀ (l : List CatEntry) (e : CatEntry), e ∈ cleanRows l → e ∈ l)) :=
  ⟨by rfl, C4_placeholder_filter exampleGrid exampleCatalog (by rfl)⟩

/-- Claim C9 (implicit): a body row whose name cell is empty but whose other
cells are not all empty is not a terminator — it is read into the table body
— and no entry with a missing (NaN) name ever reaches the returned catalog,
because `str(nan) = "nan"` is removed by the placeholder filter. -/
theorem C9_missing_name_dropped (g : Grid) (r c : Nat)
    (h1 : r + 1 < g.nrows)
    (_h2 : (g.cell (r + 1) c).isNa = true)
    (h3 : isBlankRow g (r + 1) c = false) :
    (extractBody g r c).head? = some (rowCells g (r + 1) c) ∧
    (∀ cat, extract_catalog_from_excel g = .ok cat →
      ∀ e ∈ cat, e.medicamento.isNa = false) := by
  constructor
  · unfold extractBody
    cases hfuel : g.nrows - (r + 1) with
    | zero => omega
    | succ f =>
      rw [show extractBodyAux g c (r + 1) (f + 1)
            = if isBlankRow g (r + 1) c then []
              else rowCells g (r + 1) c :: extractBodyAux g c (r + 2) f from rfl]
      rw [h3]
      simp
  · intro cat hcat e he
    exact placeholder_false_not_nan _ (extract_mem_placeholder g cat e hcat he)

/-- Witness for C9 at `missingNameGrid`, anchor `(0, 0)`: row 1 has an empty
name but a non-empty dose. -/
theorem C9_missing_name_dropped_witness :
    0 + 1 < missingNameGrid.nrows ∧
    (missingNameGrid.cell (0 + 1) 0).isNa = true ∧
    isBlankRow missingNameGrid (0 + 1) 0 = false ∧
    ((extractBody missingNameGrid 0 0).head? =
        some (rowCells missingNameGrid (0 + 1) 0) ∧
      (∀ cat, extract_catalog_from_excel missingNameGrid = .ok cat →
        ∀ e ∈ cat, e.medicamento.isNa = false)) :=
  ⟨by decide, by decide, by decide,
    C9_missing_name_dropped missingNameGrid 0 0 (by decide) (by decide) (by decide)⟩

/-! ### Range of `_infer_bucket` -/

lemma bucketOfTxt_mem_four (txt : String) (b : String)
    (h : bucketOfTxt txt = some b) :
    b ∈ (["Premedicación", "Anticuerpos", "Quimioterapia", "Otros"] : List String) := by
  unfold bucketOfTxt at h
  split_ifs at h <;> cases h <;> simp

lemma inferBucketAux_mem_five (g : Grid) (c : Nat) :
    ∀ L, inferBucketAux g c L ∈
      (["Premedicación", "Anticuerpos", "Quimioterapia", "Otros", "Catálogo"] :
        List String) := by
  intro L
  induction L with
  | nil => simp [inferBucketAux]
  | cons up rest ih =>
    unfold inferBucketAux
    cases hbt : bucketOfTxt (rowTxt g up c) with
    | none => exact ih
    | some b =>
      have := bucketOfTxt_mem_four _ b hbt
      simp only [List.mem_cons, List.not_mem_nil, or_false] at this ⊢
      tauto

lemma inferBucket_mem_five (g : Grid) (r c : Nat) :
    inferBucket g r c ∈
      (["Premedicación", "Anticuerpos", "Quimioterapia", "Otros", "Catálogo"] :
        List String) :=
  inferBucketAux_mem_five g c _

/-- Claim C10 (implicit): every entry of a returned catalog has a bucket, the
bucket is one of the five strings `_infer_bucket` can return, and is never
"Desconocido"; `_infer_bucket` is total onto those five strings, so the
`fillna("Desconocido")` step of line 63 never changes any entry. -/
theorem C10_no_desconocido (g : Grid) (cat : List CatEntry)
    (h : extract_catalog_from_excel g = .ok cat) :
    (∀ e ∈ cat, e.bucket ≠ some "Desconocido" ∧
      ∃ b, e.bucket = some b ∧
        b ∈ (["Premedicación", "Anticuerpos", "Quimioterapia", "Otros",
          "Catálogo"] : List String)) ∧
    (∀ l, concatTables g = .ok l → l.map fillnaBucket = l) ∧
    (∀ r c, inferBucket g r c ∈
      (["Premedicación", "Anticuerpos", "Quimioterapia", "Otros", "Catálogo"] :
        List String)) := by
  refine ⟨fun e he => ?_, fun l hl => ?_, fun r c => inferBucket_mem_five g r c⟩
  · obtain ⟨rc, _, e0, hb, _, rfl⟩ := extract_mem g cat e h he
    have hbe : (fillnaBucket e0).bucket = some (inferBucket g rc.1 rc.2) := by
      rw [fillnaBucket_of_some e0 _ hb, hb]
    have hmem := inferBucket_mem_five g rc.1 rc.2
    refine ⟨?_, inferBucket g rc.1 rc.2, hbe, hmem⟩
    rw [hbe]
    intro hcontra
    have : inferBucket g rc.1 rc.2 = "Desconocido" := by
      injection hcontra
    rw [this] at hmem
    revert hmem
    decide
  · have hmem := concatTables_ok_mem g l hl
    have hid : ∀ e ∈ l, fillnaBucket e = e := by
      intro e he
      obtain ⟨rc, _, hb, _⟩ := hmem e he
      exact fillnaBucket_of_some e _ hb
    rw [List.map_congr_left hid]
    exact List.map_id' l

/-- Witness for C10 at `exampleGrid`. -/
theorem C10_no_desconocido_witness :
    extract_catalog_from_excel exampleGrid = .ok exampleCatalog ∧
    ((∀ e ∈ exampleCatalog, e.bucket ≠ some "Desconocido" ∧
      ∃ b, e.bucket = some b ∧
        b ∈ (["Premedicación", "Anticuerpos", "Quimioterapia", "Otros",
          "Catálogo"] : List String)) ∧
    (∀ l, concatTables exampleGrid = .ok l → l.map fillnaBucket = l) ∧
    (∀ r c, inferBucket exampleGrid r c ∈
      (["Premedicación", "Anticuerpos", "Quimioterapia", "Otros", "Catálogo"] :
        List String))) :=
  ⟨by rfl, C10_no_desconocido exampleGrid exampleCatalog (by rfl)⟩

/-! ### Anchor detection and validation (lines 34-40) -/

lemma isCandidate_text (g : Grid) (r c : Nat) (h : isCandidate g r c = true) :
    ∃ s, g.cell r c = Cell.text s := by
  cases hcell : g.cell r c with
  | text s => exact ⟨s, rfl⟩
  | nan =>
    unfold isCandidate at h
    rw [hcell] at h
    exact absurd h (by decide)

lemma cell_text_lt_ncols (g : Grid) (r c : Nat) (s : String)
    (h : g.cell r c = Cell.text s) : c < g.ncols := by
  by_contra hc
  unfold Grid.cell at h
  rw [if_neg hc] at h
  cases h

lemma headerCells_headD (g : Grid) (r c : Nat) (h : c < g.ncols) :
    (headerCells g r c).headD Cell.nan = g.cell r c := by
  unfold headerCells rowSlice
  obtain ⟨m, hm⟩ : ∃ m, min (c + 6) g.ncols - c = m + 1 :=
    ⟨min (c + 6) g.ncols - c - 1, by omega⟩
  rw [hm, List.range_succ_eq_map]
  simp

/-- Claim C5: a cell is a candidate header anchor exactly when its trimmed,
lower-cased text equals "medicamento"; a candidate is validated (and only
validated anchors produce tables) exactly when the raw value of the first
prospective header cell — which is the anchor cell itself whenever the anchor
is inside the frame — contains the substring "Medicamento" case-sensitively;
failed candidates are not anchors, so no table is extracted for them. -/
theorem C5_two_stage_anchor_validation (g : Grid) (r c : Nat) :
    (isCandidate g r c = true ↔
      strLower (strTrim (cellStr (g.cell r c))) = "medicamento") ∧
    (isValidatedAnchor g r c = true ↔
      (isCandidate g r c = true ∧
        ∃ s, g.cell r c = Cell.text s ∧ strContains s "Medicamento" = true)) ∧
    (c < g.ncols → (headerCells g r c).headD Cell.nan = g.cell r c) ∧
    (isValidatedAnchor g r c = false → (r, c) ∉ anchors g) := by
  refine ⟨?_, ?_, headerCells_headD g r c, ?_⟩
  · unfold isCandidate
    exact beq_iff_eq
  · constructor
    · intro h
      unfold isValidatedAnchor at h
      rw [Bool.and_eq_true] at h
      obtain ⟨hc, hh⟩ := h
      obtain ⟨s, hs⟩ := isCandidate_text g r c hc
      have hlt := cell_text_lt_ncols g r c s hs
      refine ⟨hc, s, hs, ?_⟩
      unfold headerHasMedicamento at hh
      rw [headerCells_headD g r c hlt, hs] at hh
      exact hh
    · rintro ⟨hc, s, hs, hcont⟩
      have hlt := cell_text_lt_ncols g r c s hs
      unfold isValidatedAnchor
      rw [Bool.and_eq_true]
      refine ⟨hc, ?_⟩
      unfold headerHasMedicamento
      rw [headerCells_headD g r c hlt, hs]
      exact hcont
  · intro hf hmem
    have h2 : isValidatedAnchor g r c = true := (List.mem_filter.mp hmem).2
    rw [hf] at h2
    exact absurd h2 (by simp)

/-- Witness for C5 at `exampleGrid`, cell `(1, 0)`. -/
theorem C5_two_stage_anchor_validation_witness :
    (isCandidate exampleGrid 1 0 = true ↔
      strLower (strTrim (cellStr (exampleGrid.cell 1 0))) = "medicamento") ∧
    (isValidatedAnchor exampleGrid 1 0 = true ↔
      (isCandidate exampleGrid 1 0 = true ∧
        ∃ s, exampleGrid.cell 1 0 = Cell.text s ∧
          strContains s "Medicamento" = true)) ∧
    (0 < exampleGrid.ncols →
      (headerCells exampleGrid 1 0).headD Cell.nan = exampleGrid.cell 1 0) ∧
    (isValidatedAnchor exampleGrid 1 0 = false → (1, 0) ∉ anchors exampleGrid) :=
  C5_two_stage_anchor_validation exampleGrid 1 0

/-- Claim C6 (amended): the scan loop of lines 34-35 visits `(r, c)` exactly
when `r < min 200 nrows` and `c < min 40 (ncols - 1)` — the inner loop runs
over `range(min(40, raw.shape[1]-1))`, so the last column of a sheet with at
most 40 columns is never scanned — and the anchors are exactly the visited
positions passing both validation stages. -/
theorem C6_scan_window_amended (g : Grid) (r c : Nat) :
    ((r, c) ∈ scanWindow g ↔
      (r < min 200 g.nrows ∧ c < min 40 (g.ncols - 1))) ∧
    ((r, c) ∈ anchors g ↔
      ((r, c) ∈ scanWindow g ∧ isValidatedAnchor g r c = true)) := by
  constructor
  · unfold scanWindow
    rw [List.mem_flatMap]
    constructor
    · rintro ⟨a, ha, hmem⟩
      obtain ⟨b, hb, heq⟩ := List.mem_map.mp hmem
      obtain ⟨rfl, rfl⟩ := Prod.mk.injEq .. ▸ heq
      exact ⟨List.mem_range.mp ha, List.mem_range.mp hb⟩
    · rintro ⟨h1, h2⟩
      exact ⟨r, List.mem_range.mpr h1,
        List.mem_map.mpr ⟨c, List.mem_range.mpr h2, rfl⟩⟩
  · exact List.mem_filter

/-- Counterexample to C6 as stated: on the one-column sheet `lastColGrid`,
the cell `(0, 0)` satisfies `r < min 200 nrows` and `c < min 40 ncols`, yet
the scan never visits it. -/
theorem C6_scan_window_counterexample :
    ¬ (((0, 0) ∈ scanWindow lastColGrid) ↔
      (0 < min 200 lastColGrid.nrows ∧ 0 < min 40 lastColGrid.ncols)) := by
  decide

/-- Witness for the amended C6 at `lastColGrid`, position `(0, 0)`. -/
theorem C6_scan_window_amended_witness :
    (((0, 0) ∈ scanWindow lastColGrid) ↔
      (0 < min 200 lastColGrid.nrows ∧ 0 < min 40 (lastColGrid.ncols - 1))) ∧
    (((0, 0) ∈ anchors lastColGrid) ↔
      (((0, 0) ∈ scanWindow lastColGrid) ∧
        isValidatedAnchor lastColGrid 0 0 = true)) :=
  C6_scan_window_amended lastColGrid 0 0

/-! ### Choice projection (lines 83-90) -/

lemma extract_pairwise (g : Grid) (cat : List CatEntry)
    (h : extract_catalog_from_excel g = .ok cat) :
    cat.Pairwise (fun a b => ckey a ≠ ckey b) := by
  obtain ⟨l, _, hcat⟩ := extract_ok_parts g cat h
  subst hcat
  exact dropDupKeys_pairwise _ _

lemma extract_mem_text (g : Grid) (cat : List CatEntry) (e : CatEntry)
    (h : extract_catalog_from_excel g = .ok cat) (he : e ∈ cat) :
    ∃ s, e.medicamento = Cell.text s :=
  placeholder_false_text _ (extract_mem_placeholder g cat e h he)

/-- Claim C7: for a catalog returned by the extractor and a queried bucket,
the choice projection returns a lexicographically sorted list of distinct
names, a permutation of (i.e. exactly) the names of the entries of that
bucket; re-sorting the projection is the identity (idempotence; purity is a
given, the projection being a function of its arguments). -/
theorem C7_choice_projection (g : Grid) (cat : List CatEntry) (b : String)
    (h : extract_catalog_from_excel g = .ok cat)
    (_hb : b ∈ (["Premedicación", "Anticuerpos", "Quimioterapia", "Otros"] :
      List String)) :
    List.Sorted (fun x y => x ≤ y) (choicesFor cat b) ∧
    (choicesFor cat b).Nodup ∧
    (choicesFor cat b).Perm
      ((cat.filter (fun e => e.bucket == some b)).map
        (fun e => cellStr e.medicamento)) ∧
    sortStrings (choicesFor cat b) = choicesFor cat b := by
  have hsorted : List.Sorted (fun x y => x ≤ y) (choicesFor cat b) := by
    unfold choicesFor sortStrings
    exact List.sorted_mergeSort' _
  have hperm : (choicesFor cat b).Perm
      ((cat.filter (fun e => e.bucket == some b)).map
        (fun e => cellStr e.medicamento)) := by
    unfold choicesFor sortStrings
    exact List.mergeSort_perm _ _
  have hnodup_names :
      ((cat.filter (fun e => e.bucket == some b)).map
        (fun e => cellStr e.medicamento)).Nodup := by
    have hfil : (cat.filter (fun e => e.bucket == some b)).Pairwise
        (fun a b => ckey a ≠ ckey b) :=
      (extract_pairwise g cat h).filter _
    show List.Pairwise (fun a b => a ≠ b) _
    rw [List.pairwise_map]
    refine hfil.imp_of_mem ?_
    intro x y hx hy hne heq
    apply hne
    have hxb : x.bucket = some b := beq_iff_eq.mp (List.mem_filter.mp hx).2
    have hyb : y.bucket = some b := beq_iff_eq.mp (List.mem_filter.mp hy).2
    obtain ⟨sx, hsx⟩ := extract_mem_text g cat x h (List.mem_filter.mp hx).1
    obtain ⟨sy, hsy⟩ := extract_mem_text g cat y h (List.mem_filter.mp hy).1
    rw [hsx, hsy] at heq
    unfold ckey
    rw [hxb, hyb, hsx, hsy]
    exact congrArg _ (congrArg Cell.text heq)
  refine ⟨hsorted, hperm.symm.nodup hnodup_names, hperm, ?_⟩
  unfold sortStrings
  exact List.mergeSort_eq_self hsorted

/-- Witness for C7 at `exampleGrid`, bucket Premedicación (the projection is
`["Dexametasona", "Ondansetron"]`, the sorted pair of extracted names). -/
theorem C7_choice_projection_witness :
    extract_catalog_from_excel exampleGrid = .ok exampleCatalog ∧
    "Premedicación" ∈ (["Premedicación", "Anticuerpos", "Quimioterapia",
      "Otros"] : List String) ∧
    (List.Sorted (fun x y => x ≤ y) (choicesFor exampleCatalog "Premedicación") ∧
    (choicesFor exampleCatalog "Premedicación").Nodup ∧
    (choicesFor exampleCatalog "Premedicación").Perm
      ((exampleCatalog.filter (fun e => e.bucket == some "Premedicación")).map
        (fun e => cellStr e.medicamento)) ∧
    sortStrings (choicesFor exampleCatalog "Premedicación") =
      choicesFor exampleCatalog "Premedicación") :=
  ⟨by rfl, by decide,
    C7_choice_projection exampleGrid exampleCatalog "Premedicación"
      (by rfl) (by decide)⟩

/-! ### Output-table row resolution (lines 148-180) -/

lemma lookupRow_eq_find? (b m : String) :
    ∀ cat : List CatEntry,
      lookupRow cat b m = cat.find?
        (fun x => (x.bucket == some b) && (cellStr x.medicamento == m)) := by
  intro cat
  induction cat with
  | nil => rfl
  | cons x t ih =>
    cases hb : (x.bucket == some b) with
    | false =>
      have hstep : lookupRow (x :: t) b m = lookupRow t b m := by
        simp [lookupRow, List.filter_cons, hb]
      rw [hstep, List.find?_cons,
        show ((x.bucket == some b) && (cellStr x.medicamento == m)) = false
          by simp [hb]]
      exact ih
    | true =>
      cases hm : (cellStr x.medicamento == m) with
      | false =>
        have hstep : lookupRow (x :: t) b m = lookupRow t b m := by
          simp [lookupRow, List.filter_cons, hb, hm]
        rw [hstep, List.find?_cons,
          show ((x.bucket == some b) && (cellStr x.medicamento == m)) = false
            by simp [hb, hm]]
        exact ih
      | true =>
        have hstep : lookupRow (x :: t) b m = some x := by
          simp [lookupRow, List.filter_cons, hb, hm]
        rw [hstep, List.find?_cons,
          show ((x.bucket == some b) && (cellStr x.medicamento == m)) = true
            by simp [hb, hm]]

/-- Claim C8: when a section table is written, the output rows' names are
exactly the selected names that resolve in the bucket-filtered catalog, in
selection order (names with no match are silently omitted — the call stays
total); a selected name with no catalog row contributes no output row; and
every written row is populated from the first matching catalog row. -/
theorem C8_output_rows (cat : List CatEntry) (bucket : String)
    (meds : List String) :
    ((writeTableRows cat bucket meds).map (fun row => row.med) =
      meds.filter (fun m => (lookupRow cat bucket m).isSome)) ∧
    (∀ m ∈ meds, lookupRow cat bucket m = none →
      m ∉ (writeTableRows cat bucket meds).map (fun row => row.med)) ∧
    (∀ row ∈ writeTableRows cat bucket meds, ∃ e,
      cat.find? (fun x => (x.bucket == some bucket) &&
        (cellStr x.medicamento == row.med)) = some e ∧
      row = ⟨row.med, e.dosis, e.solucion, e.vs, e.tiempo, e.via⟩) := by
  have h1 : (writeTableRows cat bucket meds).map (fun row => row.med) =
      meds.filter (fun m => (lookupRow cat bucket m).isSome) := by
    induction meds with
    | nil => rfl
    | cons m t ih =>
      cases hl : lookupRow cat bucket m with
      | none =>
        simp only [writeTableRows, List.filterMap_cons, hl, Option.map_none',
          List.filter_cons]
        rw [show (Option.isSome (none : Option CatEntry)) = false from rfl]
        simpa [writeTableRows] using ih
      | some e =>
        simp only [writeTableRows, List.filterMap_cons, hl, Option.map_some',
          List.filter_cons]
        rw [show (Option.isSome (some e)) = true from rfl]
        simp only [if_true, List.map_cons]
        exact congrArg _ (by simpa [writeTableRows] using ih)
  refine ⟨h1, ?_, ?_⟩
  · intro m _hm hnone hmem
    rw [h1] at hmem
    have h2 := (List.mem_filter.mp hmem).2
    rw [hnone] at h2
    exact absurd h2 (by simp)
  · intro row hrow
    obtain ⟨m, _hmmem, hf⟩ := List.mem_filterMap.mp hrow
    cases hl : lookupRow cat bucket m with
    | none => rw [hl] at hf; cases hf
    | some e =>
      rw [hl] at hf
      rw [Option.map_some'] at hf
      cases hf
      exact ⟨e, by rw [← lookupRow_eq_find?]; exact hl, rfl⟩

/-- Witness for C8: a selection with one resolvable and one unresolvable
name against `exampleCatalog`. -/
theorem C8_output_rows_witness :
    ((writeTableRows exampleCatalog "Premedicación"
        ["Dexametasona", "Paclitaxel"]).map (fun row => row.med) =
      (["Dexametasona", "Paclitaxel"]).filter
        (fun m => (lookupRow exampleCatalog "Premedicación" m).isSome)) ∧
    (∀ m ∈ (["Dexametasona", "Paclitaxel"] : List String),
      lookupRow exampleCatalog "Premedicación" m = none →
      m ∉ (writeTableRows exampleCatalog "Premedicación"
        ["Dexametasona", "Paclitaxel"]).map (fun row => row.med)) ∧
    (∀ row ∈ writeTableRows exampleCatalog "Premedicación"
        ["Dexametasona", "Paclitaxel"], ∃ e,
      exampleCatalog.find? (fun x => (x.bucket == some "Premedicación") &&
        (cellStr x.medicamento == row.med)) = some e ∧
      row = ⟨row.med, e.dosis, e.solucion, e.vs, e.tiempo, e.via⟩) :=
  C8_output_rows exampleCatalog "Premedicación" ["Dexametasona", "Paclitaxel"]

end Papeleria
